import Mathlib

/-!
Shallow embedding of `bootstrap.py` (repository-provisioning orchestrator).

External effects are made explicit: the interpreter's module search path
(`sys.path`), the set of already-cloned repository names on disk, the process
environment table, and the ordered trace of external commands issued.  Command
success and import availability are supplied by oracles in `World`, so one run
of the embedded code is a pure function of the oracles and the initial state.
-/

namespace GColab

/-- Normalized description of one provisioning target (`RepoSpec` dataclass,
bootstrap.py lines 10-21), with the dataclass field defaults. -/
structure RepoSpec where
  name : String
  url : String
  ref : String := "main"
  editable : Bool := true
  submodules : Bool := false
  extras : List String := []
  install : String := "pip"
  path : String := "."
  env : List (String × String) := []
  post_install : Option String := none
deriving Repr, DecidableEq

/-- An external command: argv tokens plus the optional working directory
passed to `subprocess.run` (`cwd=` argument of `run`). -/
structure Cmd where
  argv : List String
  cwd : Option String := none
deriving Repr, DecidableEq

/-- The mutable process state the script touches: `sys.path`, the set of
destination directories that already exist under the repo root, `os.environ`,
and the ordered trace of external commands issued so far. -/
structure Sys where
  path : List String := []
  existing : List String := []
  environ : List (String × String) := []
  trace : List Cmd := []
deriving Repr, DecidableEq

/-- Oracles for the environment: whether a spawned command exits with status 0,
and whether a Python module import succeeds (used by `ensure`). -/
structure World where
  ok : Cmd → Bool
  importable : String → Bool

/-- Failure modes: `SystemExit` raised by `run` on a non-zero exit status
(line 31), `SystemExit` for an unknown install mode (line 110), and the
`TypeError` Python raises when `RepoSpec(**e)` misses a required field
(line 144). -/
inductive Err where
  | commandFailed (argv : List String)
  | unknownInstall (mode : String)
  | typeError
deriving Repr, DecidableEq

/-- Decidable equality for `Except`, so concrete run outcomes can be checked
by evaluation. -/
instance exceptDecEq {ε α : Type} [DecidableEq ε] [DecidableEq α] :
    DecidableEq (Except ε α) := fun a b =>
  match a, b with
  | Except.ok x, Except.ok y =>
      if h : x = y then Decidable.isTrue (by rw [h])
      else Decidable.isFalse (fun hc => h (Except.ok.inj hc))
  | Except.error x, Except.error y =>
      if h : x = y then Decidable.isTrue (by rw [h])
      else Decidable.isFalse (fun hc => h (Except.error.inj hc))
  | Except.ok _, Except.error _ => Decidable.isFalse (fun hc => Except.noConfusion hc)
  | Except.error _, Except.ok _ => Decidable.isFalse (fun hc => Except.noConfusion hc)

/-- Summary record produced per repository (line 114). -/
structure RunResult where
  name : String
  path : String
deriving Repr, DecidableEq

/-- Value of `sys.executable` in the embedding. -/
def pyExe : String := "python3"

/-- Value of the `REPO_ROOT` constant, `/content/repos` (lines 6-7). -/
def repoRoot : String := "/content/repos"

/-- Destination directory `REPO_ROOT / spec.name` (line 50). -/
def destOf (spec : RepoSpec) : String := repoRoot ++ "/" ++ spec.name

/-- Python truthiness of an `Optional[str]`: `None` and `""` are falsy. -/
def truthy : Option String → Bool
  | none => false
  | some t => !(t == "")

/-- Model of `args.gh_token or None` (line 147): an empty string becomes
`None`. -/
def pyOrNone (t : String) : Option String :=
  if t == "" then none else some t

/-- Python `str.startswith`, modelled on the character lists so it is
kernel-executable. -/
def strStartsWith (s pre : String) : Bool := pre.data.isPrefixOf s.data

/-- Model of `run` (lines 23-32): record the command in the trace; if `check`
holds and the exit status is non-zero, fail with `SystemExit` carrying the
command line.  Printing is not modelled.  All call sites in the script use
`check=True`, so the flag is dropped. -/
def run (W : World) (cmd : Cmd) (s : Sys) : Sys × Except Err Unit :=
  let s1 : Sys := { s with trace := s.trace ++ [cmd] }
  if W.ok cmd then (s1, Except.ok ()) else (s1, Except.error (Err.commandFailed cmd.argv))

/-- Sequencing for the state-and-error shape: propagate the failure, keeping
the state (trace) reached so far. -/
def seq {α : Type} (x : Sys × Except Err Unit) (f : Sys → Sys × Except Err α) :
    Sys × Except Err α :=
  match x with
  | (s, Except.ok _) => f s
  | (s, Except.error e) => (s, Except.error e)

/-- Model of `ensure` (lines 34-38): if the module imports, do nothing;
otherwise pip-install it under `pip_name or module`. -/
def ensure (W : World) (module : String) (pip_name : Option String) (s : Sys) :
    Sys × Except Err Unit :=
  if W.importable module then (s, Except.ok ())
  else run W ⟨[pyExe, "-m", "pip", "install", "-q", pip_name.getD module], none⟩ s

/-- The clone command built at lines 54-57: a bearer-authorization extraheader
is added when the token is truthy and the URL targets github.com; the URL
argument itself is always `spec.url`, unmodified. -/
def cloneCmd (spec : RepoSpec) (gh_token : Option String) : Cmd :=
  if truthy gh_token && strStartsWith spec.url "https://github.com/" then
    ⟨["git", "-c", "http.extraheader=AUTHORIZATION: bearer " ++ gh_token.getD "",
      "clone", spec.url, destOf spec], none⟩
  else ⟨["git", "clone", spec.url, destOf spec], none⟩

/-- The fetch-or-clone choice of lines 51-58: fetch when the destination
exists, otherwise clone (a successful clone creates the destination). -/
def syncStep (W : World) (spec : RepoSpec) (gh_token : Option String) (s : Sys) :
    Sys × Except Err Unit :=
  if s.existing.contains spec.name then
    run W ⟨["git", "fetch", "--all", "--tags"], some (destOf spec)⟩ s
  else
    match run W (cloneCmd spec gh_token) s with
    | (s1, Except.ok _) => ({ s1 with existing := spec.name :: s1.existing }, Except.ok ())
    | (s1, Except.error e) => (s1, Except.error e)

/-- Model of `git_clone_or_fetch` (lines 49-62): fetch or clone, then check out
`spec.ref`, then optionally update submodules; returns the destination path. -/
def git_clone_or_fetch (W : World) (spec : RepoSpec) (gh_token : Option String)
    (s : Sys) : Sys × Except Err String :=
  let dest := destOf spec
  seq (syncStep W spec gh_token s) fun s1 =>
  seq (run W ⟨["git", "checkout", spec.ref], some dest⟩ s1) fun s2 =>
  seq (if spec.submodules then
        run W ⟨["git", "submodule", "update", "--init", "--recursive"], some dest⟩ s2
      else (s2, Except.ok ())) fun s3 =>
  (s3, Except.ok dest)

/-- Bracketed extras suffix, empty when there are no extras
(lines 65 and 70). -/
def bracketExtras (extras : List String) : String :=
  if extras.isEmpty then "" else "[" ++ String.intercalate "," extras ++ "]"

/-- Model of `pip_editable_install` (lines 64-67): quiet pip self-upgrade, then
`pip install -e <dir>[extras]`. -/
def pip_editable_install (W : World) (project_dir : String) (extras : List String)
    (s : Sys) : Sys × Except Err Unit :=
  let egg := project_dir ++ bracketExtras extras
  seq (run W ⟨[pyExe, "-m", "pip", "install", "-q", "-U", "pip"], none⟩ s) fun s1 =>
  run W ⟨[pyExe, "-m", "pip", "install", "-e", egg], none⟩ s1

/-- Model of `pip_noneditable_install` (lines 69-72): quiet pip self-upgrade,
then `pip install .[extras]` with the project directory as cwd. -/
def pip_noneditable_install (W : World) (project_dir : String) (extras : List String)
    (s : Sys) : Sys × Except Err Unit :=
  let target := "." ++ bracketExtras extras
  seq (run W ⟨[pyExe, "-m", "pip", "install", "-q", "-U", "pip"], none⟩ s) fun s1 =>
  run W ⟨[pyExe, "-m", "pip", "install", target], some project_dir⟩ s1

/-- Model of `uv_install` (lines 74-82): ensure `uv` is importable, then in the
editable case fall back to `pip_editable_install`, and in the non-editable case
run `python -m uv pip install <target>` in the project directory. -/
def uv_install (W : World) (project_dir : String) (editable : Bool)
    (extras : List String) (s : Sys) : Sys × Except Err Unit :=
  seq (ensure W "uv" none s) fun s1 =>
  if editable then pip_editable_install W project_dir extras s1
  else
    let target := if extras.isEmpty then "." else ".[" ++ String.intercalate "," extras ++ "]"
    run W ⟨[pyExe, "-m", "uv", "pip", "install", target], some project_dir⟩ s1

/-- Model of `add_to_syspath` (lines 93-96): insert at the front of `sys.path`
when not already present. -/
def add_to_syspath (project_dir : String) (s : Sys) : Sys :=
  if s.path.contains project_dir then s else { s with path := project_dir :: s.path }

/-- Model of `poetry_install` (lines 84-91): ensure `poetry`, run its install
command with extras passed via `--with`, and for `editable` additionally add
the project directory to `sys.path`. -/
def poetry_install (W : World) (project_dir : String) (editable : Bool)
    (extras : List String) (s : Sys) : Sys × Except Err Unit :=
  seq (ensure W "poetry" none s) fun s1 =>
  let args := [pyExe, "-m", "poetry", "install"] ++
    (if extras.isEmpty then [] else ["--with", String.intercalate "," extras])
  seq (run W ⟨args, some project_dir⟩ s1) fun s2 =>
  ((if editable then add_to_syspath project_dir s2 else s2), Except.ok ())

/-- Resolution of `(repo_dir / spec.path).resolve()` (line 99) for the relative
paths a manifest uses: `"."` resolves to the repository directory itself,
anything else is a subdirectory join; `repo_dir` is already absolute. -/
def resolveProj (repo_dir p : String) : String :=
  if p == "." then repo_dir else repo_dir ++ "/" ++ p

/-- Python `dict.update` on the environment table: existing keys are
overwritten in place, new keys are appended (line 100). -/
def environUpdate (base upd : List (String × String)) : List (String × String) :=
  upd.foldl
    (fun acc kv =>
      if acc.any (fun p => p.1 == kv.1) then
        acc.map (fun p => if p.1 == kv.1 then kv else p)
      else acc ++ [kv])
    base

/-- Model of `install_repo` (lines 98-114): resolve the project directory,
merge `spec.env` into the process environment, dispatch on `spec.install`
(failing with `SystemExit` on an unknown mode), unconditionally add the project
directory to `sys.path`, run the truthy `post_install` hook, and return the
summary record. -/
def install_repo (W : World) (spec : RepoSpec) (repo_dir : String) (s : Sys) :
    Sys × Except Err RunResult :=
  let project_dir := resolveProj repo_dir spec.path
  let s0 : Sys := { s with environ := environUpdate s.environ spec.env }
  seq
    (if spec.install == "none" then (add_to_syspath project_dir s0, Except.ok ())
     else if spec.install == "pip" then
       (if spec.editable then pip_editable_install W project_dir spec.extras s0
        else pip_noneditable_install W project_dir spec.extras s0)
     else if spec.install == "uv" then uv_install W project_dir spec.editable spec.extras s0
     else if spec.install == "poetry" then
       poetry_install W project_dir spec.editable spec.extras s0
     else (s0, Except.error (Err.unknownInstall spec.install)))
    fun s1 =>
  let s2 := add_to_syspath project_dir s1
  seq
    (match spec.post_install with
     | some hook => if hook == "" then (s2, Except.ok ()) else
         run W ⟨["bash", "-lc", hook], some project_dir⟩ s2
     | none => (s2, Except.ok ()))
    fun s3 =>
  (s3, Except.ok ⟨spec.name, project_dir⟩)

/-- A raw manifest entry: every `RepoSpec` field possibly absent. -/
structure RawEntry where
  name : Option String := none
  url : Option String := none
  ref : Option String := none
  editable : Option Bool := none
  submodules : Option Bool := none
  extras : Option (List String) := none
  install : Option String := none
  path : Option String := none
  env : Option (List (String × String)) := none
  post_install : Option String := none
deriving Repr, DecidableEq

/-- Model of `RepoSpec(**e)` (line 144): Python raises `TypeError` when a
required dataclass field (`name` or `url`) is missing; otherwise the dataclass
defaults fill the absent fields.  No validation of `install` happens here. -/
def normalize (e : RawEntry) : Except Err RepoSpec :=
  match e.name, e.url with
  | some n, some u =>
      Except.ok
        { name := n, url := u, ref := e.ref.getD "main",
          editable := e.editable.getD true, submodules := e.submodules.getD false,
          extras := e.extras.getD [], install := e.install.getD "pip",
          path := e.path.getD ".", env := e.env.getD [],
          post_install := e.post_install }
  | _, _ => Except.error Err.typeError

/-- The list comprehension `[RepoSpec(**e) for e in ...]` (line 144): the first
entry that fails normalization aborts the whole comprehension. -/
def normalizeAll : List RawEntry → Except Err (List RepoSpec)
  | [] => Except.ok []
  | e :: rest =>
    match normalize e with
    | Except.error er => Except.error er
    | Except.ok spec =>
      match normalizeAll rest with
      | Except.error er => Except.error er
      | Except.ok specs => Except.ok (spec :: specs)

/-- The provisioning loop of `main` (lines 145-148): for each spec in manifest
order, synchronize then install, collecting one `RunResult` per entry;
any failure aborts the loop immediately. -/
def runAll (W : World) (gh_token : Option String) : List RepoSpec → Sys →
    Sys × Except Err (List RunResult)
  | [], s => (s, Except.ok [])
  | spec :: rest, s =>
    match git_clone_or_fetch W spec gh_token s with
    | (s1, Except.error e) => (s1, Except.error e)
    | (s1, Except.ok repo_dir) =>
      match install_repo W spec repo_dir s1 with
      | (s2, Except.error e) => (s2, Except.error e)
      | (s2, Except.ok res) =>
        match runAll W gh_token rest s2 with
        | (s3, Except.error e) => (s3, Except.error e)
        | (s3, Except.ok results) => (s3, Except.ok (res :: results))

/-- A parsed manifest document: the top-level `repos` key may be absent. -/
structure Manifest where
  repos : Option (List RawEntry) := none
deriving Repr, DecidableEq

/-- The core of `main` (lines 143-150): `manifest.get("repos", [])`, normalize
every entry up front, then run the provisioning loop with
`args.gh_token or None`.  The result list is reported only on success. -/
def mainFlow (W : World) (gh_token_arg : String) (m : Manifest) (s : Sys) :
    Sys × Except Err (List RunResult) :=
  match normalizeAll (m.repos.getD []) with
  | Except.error e => (s, Except.error e)
  | Except.ok specs => runAll W (pyOrNone gh_token_arg) specs s

/-- The commands a spec's post-install hook contributes to the trace: nothing
when the hook is absent or the empty (falsy) string, otherwise the single
`bash -lc <hook>` invocation of line 113. -/
def hookCmds (spec : RepoSpec) (pd : String) : List Cmd :=
  match spec.post_install with
  | none => []
  | some hook => if hook == "" then [] else [⟨["bash", "-lc", hook], some pd⟩]

/-- Classification of a clone command in the trace: `git clone ...` or
`git -c <config> clone ...`. -/
def isCloneCmd (c : Cmd) : Bool :=
  match c.argv with
  | "git" :: "clone" :: _ => true
  | "git" :: "-c" :: _ :: "clone" :: _ => true
  | _ => false

/-- Classification of a fetch command in the trace. -/
def isFetchCmd (c : Cmd) : Bool :=
  match c.argv with
  | "git" :: "fetch" :: _ => true
  | _ => false

/-- World in which every command succeeds and every module imports. -/
def allOk : World := ⟨fun _ => true, fun _ => true⟩

/-- World in which every clone command fails and everything else succeeds. -/
def cloneFailWorld : World := ⟨fun c => !(isCloneCmd c), fun _ => true⟩

/-- Initial state: empty search path, no clones on disk, empty environment,
empty trace. -/
def sInit : Sys := {}

/-- C8: a raw manifest entry carrying only `name` and `url` normalizes to a
RepositorySpec with exactly the documented defaults: `ref="main"`,
`editable=true`, `submodules=false`, `extras=[]`, `install="pip"`, `path="."`,
`env={}`, `post_install=None`. -/
theorem minimal_entry_gets_exact_defaults (n u : String) :
    normalize { name := some n, url := some u } =
      Except.ok
        { name := n, url := u, ref := "main", editable := true, submodules := false,
          extras := [], install := "pip", path := ".", env := [], post_install := none } :=
  rfl

/-- C9: an empty access token (including the default taken from an unset
environment variable, which `args.gh_token or None` turns into `None`) is
treated as no token at all: the clone command is the plain
`git clone url dest`, with no authorization-header argument, even for a URL on
the token-gated host, and synchronization behaves exactly as with no token. -/
theorem empty_token_means_no_auth_header (W : World) (spec : RepoSpec) (s : Sys) :
    pyOrNone "" = none ∧
    cloneCmd spec (some "") = cloneCmd spec none ∧
    cloneCmd spec none = ⟨["git", "clone", spec.url, destOf spec], none⟩ ∧
    git_clone_or_fetch W spec (pyOrNone "") s = git_clone_or_fetch W spec none s := by
  refine ⟨rfl, ?_, ?_, rfl⟩
  · simp [cloneCmd, truthy]
  · simp [cloneCmd, truthy]

/-- C10: a manifest without a `repos` key, or with an empty `repos` sequence,
makes the run succeed with an empty result list and an unchanged state: no
external command is issued. -/
theorem empty_manifest_no_commands_empty_results (W : World) (g : String)
    (m : Manifest) (s : Sys) (h : m.repos = none ∨ m.repos = some []) :
    mainFlow W g m s = (s, Except.ok []) := by
  rcases h with h | h <;> simp [mainFlow, h, normalizeAll, runAll]

/-- C10 witness: the concrete manifest `{}` yields an empty successful run. -/
theorem empty_manifest_no_commands_empty_results_witness :
    (Manifest.mk none).repos = none ∧
    mainFlow allOk "" (Manifest.mk none) sInit = (sInit, Except.ok []) :=
  ⟨rfl, empty_manifest_no_commands_empty_results allOk "" (Manifest.mk none) sInit (Or.inl rfl)⟩

/-- C2 counterexample: in a run over two repositories `a` then `b` (both with
install mode `none`), `a`'s project root is inserted into the search path
first, but the final search path is `[".../b", ".../a"]`: the path inserted
LATER sits in front and wins module-name collisions, refuting "first
successful insertion wins priority". -/
theorem first_insertion_priority_cex :
    (runAll allOk none
        [{ name := "a", url := "https://example/a.git", install := "none" },
         { name := "b", url := "https://example/b.git", install := "none" }] sInit).1.path
      = ["/content/repos/b", "/content/repos/a"] ∧
    List.indexOf "/content/repos/b"
        (runAll allOk none
          [{ name := "a", url := "https://example/a.git", install := "none" },
           { name := "b", url := "https://example/b.git", install := "none" }] sInit).1.path
      < List.indexOf "/content/repos/a"
        (runAll allOk none
          [{ name := "a", url := "https://example/a.git", install := "none" },
           { name := "b", url := "https://example/b.git", install := "none" }] sInit).1.path := by
  decide

/-- C2 amended: the make-importable step inserts a root at the front of the
search path only when absent (and is idempotent), so across distinct
repositories the LAST successful insertion wins priority for module-name
collisions: inserting fresh `p` and then fresh `q` yields `q :: p :: old`,
with the later insertion resolving first. -/
theorem syspath_insert_front_last_wins (p q : String) (s : Sys)
    (hp : s.path.contains p = false) (hq : s.path.contains q = false)
    (hpq : p ≠ q) :
    (add_to_syspath p s).path = p :: s.path ∧
    add_to_syspath p (add_to_syspath p s) = add_to_syspath p s ∧
    (add_to_syspath q (add_to_syspath p s)).path = q :: p :: s.path := by
  have hp2 : p ∉ s.path := by simpa using hp
  have hq2 : q ∉ s.path := by simpa using hq
  have hp1 : (add_to_syspath p s) = { s with path := p :: s.path } := by
    simp [add_to_syspath, hp2]
  refine ⟨by rw [hp1], ?_, ?_⟩
  · rw [hp1]
    simp [add_to_syspath]
  · rw [hp1]
    have hq3 : q ∉ p :: s.path := by simp [hq2, Ne.symm hpq]
    simp [add_to_syspath, hq3]

/-- Adding a path to `sys.path` is idempotent. -/
theorem add_to_syspath_idem (p : String) (s : Sys) :
    add_to_syspath p (add_to_syspath p s) = add_to_syspath p s := by
  by_cases h : p ∈ s.path
  · simp [add_to_syspath, h]
  · simp [add_to_syspath, h]

/-- Adding a path to `sys.path` issues no command. -/
theorem add_to_syspath_trace (p : String) (s : Sys) :
    (add_to_syspath p s).trace = s.trace := by
  by_cases h : p ∈ s.path <;> simp [add_to_syspath, h]

/-- Adding a path never changes `existing` or `environ`. -/
theorem add_to_syspath_existing (p : String) (s : Sys) :
    (add_to_syspath p s).existing = s.existing := by
  by_cases h : p ∈ s.path <;> simp [add_to_syspath, h]

/-- C2 amended witness: concrete fresh roots "/content/repos/a" and
"/content/repos/b" inserted into the empty search path in that order end up
with "b" in front. -/
theorem syspath_insert_front_last_wins_witness :
    (add_to_syspath "/content/repos/b" (add_to_syspath "/content/repos/a" sInit)).path
      = ["/content/repos/b", "/content/repos/a"] :=
  (syspath_insert_front_last_wins "/content/repos/a" "/content/repos/b" sInit
    (by decide) (by decide) (by decide)).2.2

/-- C3 counterexample: dispatching `install="uv"` with `editable=true` (in a
world where `uv` already imports) issues only plain pip commands — the
editable install is NOT performed through the uv tool: no issued command
mentions `uv` at all. -/
theorem uv_editable_not_through_uv_cex :
    (install_repo allOk
        { name := "u", url := "https://example/u.git", install := "uv", editable := true }
        "/content/repos/u" sInit).1.trace
      = [⟨["python3", "-m", "pip", "install", "-q", "-U", "pip"], none⟩,
         ⟨["python3", "-m", "pip", "install", "-e", "/content/repos/u"], none⟩] ∧
    ((install_repo allOk
        { name := "u", url := "https://example/u.git", install := "uv", editable := true }
        "/content/repos/u" sInit).1.trace.all
      fun c => !(c.argv.contains "uv")) = true := by
  decide

/-- C3 amended: for `install="uv"` the dispatcher first ensures the uv tool is
importable (pip-installing it on demand when the import fails) in BOTH
editable cases, but only the non-editable case installs through uv
(`python -m uv pip install <target>`); the editable case falls back to pip's
own editable install. -/
theorem uv_editable_falls_back_to_pip (W : World) (pd : String) (extras : List String)
    (s : Sys) (hok : ∀ c, W.ok c = true) :
    (uv_install W pd true extras s).1.trace
      = s.trace ++ (if W.importable "uv" then []
            else [⟨[pyExe, "-m", "pip", "install", "-q", "uv"], none⟩])
          ++ [⟨[pyExe, "-m", "pip", "install", "-q", "-U", "pip"], none⟩,
              ⟨[pyExe, "-m", "pip", "install", "-e", pd ++ bracketExtras extras], none⟩] ∧
    (uv_install W pd false extras s).1.trace
      = s.trace ++ (if W.importable "uv" then []
            else [⟨[pyExe, "-m", "pip", "install", "-q", "uv"], none⟩])
          ++ [⟨[pyExe, "-m", "uv", "pip", "install",
                if extras.isEmpty then "."
                else ".[" ++ String.intercalate "," extras ++ "]"], some pd⟩] := by
  constructor <;>
  · cases himp : W.importable "uv" <;>
      simp [uv_install, ensure, pip_editable_install, run, seq, hok, himp]

/-- C3 amended witness: concrete uv dispatch for "/p" with extras ["dev"],
editable, in the all-ok world: both issued commands are pip invocations. -/
theorem uv_editable_falls_back_to_pip_witness :
    (uv_install allOk "/p" true ["dev"] sInit).1.trace
      = [⟨["python3", "-m", "pip", "install", "-q", "-U", "pip"], none⟩,
         ⟨["python3", "-m", "pip", "install", "-e", "/p[dev]"], none⟩] := by
  have h := uv_editable_falls_back_to_pip allOk "/p" ["dev"] sInit (fun _ => rfl)
  exact h.1.trans (by decide)

/-- C6: dispatching `install="none"` invokes no package-manager command (in
this embedding every pip/uv/poetry invocation starts with the interpreter
executable): the only commands it can issue are the optional post-install
hook's single `bash -lc` invocation; and it inserts the resolved project root
into the search path exactly once, with a second dispatch of the same spec
still leaving exactly one occurrence. -/
theorem install_none_no_commands_idempotent_syspath (W : World) (spec : RepoSpec)
    (repo_dir : String) (s : Sys)
    (hmode : spec.install = "none")
    (hfresh : s.path.contains (resolveProj repo_dir spec.path) = false) :
    (install_repo W spec repo_dir s).1.trace
      = s.trace ++ hookCmds spec (resolveProj repo_dir spec.path) ∧
    List.countP (fun c => c.argv.head? == some pyExe)
        (hookCmds spec (resolveProj repo_dir spec.path)) = 0 ∧
    (install_repo W spec repo_dir s).1.path.count (resolveProj repo_dir spec.path) = 1 ∧
    (install_repo W spec repo_dir ((install_repo W spec repo_dir s).1)).1.path.count
        (resolveProj repo_dir spec.path) = 1 := by
  have hstate : ∀ s3 : Sys, (install_repo W spec repo_dir s3).1
      = { add_to_syspath (resolveProj repo_dir spec.path)
            { s3 with environ := environUpdate s3.environ spec.env } with
          trace := (add_to_syspath (resolveProj repo_dir spec.path)
              { s3 with environ := environUpdate s3.environ spec.env }).trace
            ++ hookCmds spec (resolveProj repo_dir spec.path) } := by
    intro s3
    rcases hpost : spec.post_install with _ | hook
    · simp [install_repo, hookCmds, hmode, hpost, seq, add_to_syspath_idem]
    · by_cases hh : (hook == "") = true
      · simp [install_repo, hookCmds, hmode, hpost, hh, seq, add_to_syspath_idem]
      · by_cases hokb :
            W.ok ⟨["bash", "-lc", hook], some (resolveProj repo_dir spec.path)⟩ = true
        · simp [install_repo, hookCmds, hmode, hpost, hh, hokb, run, seq,
            add_to_syspath_idem]
        · simp [install_repo, hookCmds, hmode, hpost, hh, hokb, run, seq,
            add_to_syspath_idem]
  have hmem : resolveProj repo_dir spec.path ∉ s.path := by simpa using hfresh
  have hcnt0 : s.path.count (resolveProj repo_dir spec.path) = 0 :=
    List.count_eq_zero.mpr hmem
  have hpath1 : (install_repo W spec repo_dir s).1.path
      = resolveProj repo_dir spec.path :: s.path := by
    rw [hstate s]
    simp [add_to_syspath, hmem]
  refine ⟨?_, ?_, ?_, ?_⟩
  · rw [hstate s]
    rw [add_to_syspath_trace]
  · rcases hpost : spec.post_install with _ | hook
    · simp [hookCmds, hpost]
    · by_cases hh : (hook == "") = true
      · simp [hookCmds, hpost, hh]
      · simp [hookCmds, hpost, hh, List.countP_cons, pyExe]
  · rw [hpath1, List.count_cons_self, hcnt0]
  · rw [hstate ((install_repo W spec repo_dir s).1)]
    have hin : resolveProj repo_dir spec.path
        ∈ ({ (install_repo W spec repo_dir s).1 with
              environ := environUpdate ((install_repo W spec repo_dir s).1).environ
                spec.env } : Sys).path := by
      show resolveProj repo_dir spec.path ∈ (install_repo W spec repo_dir s).1.path
      rw [hpath1]
      exact List.mem_cons_self _ _
    simp [add_to_syspath, hin, hpath1, List.count_cons_self, hcnt0]

/-- C6 witness: concrete `install="none"` dispatch with a post-install hook on
a fresh state issues only the hook's bash command (no package-manager command)
and yields exactly one search-path occurrence, also after a second dispatch. -/
theorem install_none_idempotent_witness :
    (install_repo allOk
        { name := "n", url := "https://example/n.git", install := "none",
          post_install := some "echo hi" }
        "/content/repos/n" sInit).1.trace
      = [⟨["bash", "-lc", "echo hi"], some "/content/repos/n"⟩] ∧
    (install_repo allOk
        { name := "n", url := "https://example/n.git", install := "none",
          post_install := some "echo hi" }
        "/content/repos/n"
        ((install_repo allOk
          { name := "n", url := "https://example/n.git", install := "none",
            post_install := some "echo hi" }
          "/content/repos/n" sInit).1)).1.path.count "/content/repos/n" = 1 := by
  have h := install_none_no_commands_idempotent_syspath allOk
    { name := "n", url := "https://example/n.git", install := "none",
      post_install := some "echo hi" }
    "/content/repos/n" sInit rfl (by decide)
  exact ⟨h.1.trans (by decide), h.2.2.2⟩

/-- C7: when a non-empty token is supplied for a github.com URL that does not
itself contain the token, the clone command carries the token in a bearer
authorization extraheader argument, and the URL argument of the clone command
(position 4) is the spec's URL unchanged, with the token not a substring of
it. -/
theorem token_as_bearer_header_not_in_url (spec : RepoSpec) (t : String)
    (ht : t ≠ "") (hurl : strStartsWith spec.url "https://github.com/" = true)
    (htok : ¬ t.data <:+: spec.url.data) :
    (cloneCmd spec (some t)).argv
      = ["git", "-c", "http.extraheader=AUTHORIZATION: bearer " ++ t, "clone",
         spec.url, destOf spec] ∧
    ("http.extraheader=AUTHORIZATION: bearer " ++ t) ∈ (cloneCmd spec (some t)).argv ∧
    ((cloneCmd spec (some t)).argv.getD 4 "") = spec.url ∧
    ¬ t.data <:+: ((cloneCmd spec (some t)).argv.getD 4 "").data := by
  have hc : cloneCmd spec (some t)
      = ⟨["git", "-c", "http.extraheader=AUTHORIZATION: bearer " ++ t, "clone",
          spec.url, destOf spec], none⟩ := by
    simp [cloneCmd, truthy, ht, hurl]
  rw [hc]
  refine ⟨rfl, ?_, rfl, htok⟩
  simp

/-- Any clone command built by the Synchronizer is classified as a clone. -/
theorem isCloneCmd_cloneCmd (spec : RepoSpec) (gh : Option String) :
    isCloneCmd (cloneCmd spec gh) = true := by
  unfold cloneCmd
  split <;> rfl

/-- No clone command built by the Synchronizer is classified as a fetch. -/
theorem isFetchCmd_cloneCmd (spec : RepoSpec) (gh : Option String) :
    isFetchCmd (cloneCmd spec gh) = false := by
  unfold cloneCmd
  split <;> rfl

/-- A checkout command is not a clone. -/
theorem isCloneCmd_checkout (r : String) (d : Option String) :
    isCloneCmd ⟨["git", "checkout", r], d⟩ = false := rfl

/-- A checkout command is not a fetch. -/
theorem isFetchCmd_checkout (r : String) (d : Option String) :
    isFetchCmd ⟨["git", "checkout", r], d⟩ = false := rfl

/-- A submodule-update command is not a clone. -/
theorem isCloneCmd_submodule (d : Option String) :
    isCloneCmd ⟨["git", "submodule", "update", "--init", "--recursive"], d⟩ = false := rfl

/-- A submodule-update command is not a fetch. -/
theorem isFetchCmd_submodule (d : Option String) :
    isFetchCmd ⟨["git", "submodule", "update", "--init", "--recursive"], d⟩ = false := rfl

/-- The fetch command is a fetch and not a clone. -/
theorem fetchCmd_class (d : Option String) :
    isFetchCmd ⟨["git", "fetch", "--all", "--tags"], d⟩ = true ∧
    isCloneCmd ⟨["git", "fetch", "--all", "--tags"], d⟩ = false := ⟨rfl, rfl⟩

/-- C5: when the destination does not exist, synchronization issues exactly
one clone command and zero fetch commands; when it exists, zero clones and
exactly one fetch; in both cases a checkout of the spec's ref immediately
follows the clone/fetch (then the optional submodule update). -/
theorem sync_clone_fetch_exclusive_with_checkout (W : World) (spec : RepoSpec)
    (gh : Option String) (s : Sys) (hok : ∀ c, W.ok c = true) :
    (s.existing.contains spec.name = false →
      ∃ delta,
        delta = cloneCmd spec gh
            :: Cmd.mk ["git", "checkout", spec.ref] (some (destOf spec))
            :: (if spec.submodules then
                  [Cmd.mk ["git", "submodule", "update", "--init", "--recursive"]
                    (some (destOf spec))]
                else []) ∧
        (git_clone_or_fetch W spec gh s).1.trace = s.trace ++ delta ∧
        List.countP (fun c => isCloneCmd c) delta = 1 ∧
        List.countP (fun c => isFetchCmd c) delta = 0) ∧
    (s.existing.contains spec.name = true →
      ∃ delta,
        delta = Cmd.mk ["git", "fetch", "--all", "--tags"] (some (destOf spec))
            :: Cmd.mk ["git", "checkout", spec.ref] (some (destOf spec))
            :: (if spec.submodules then
                  [Cmd.mk ["git", "submodule", "update", "--init", "--recursive"]
                    (some (destOf spec))]
                else []) ∧
        (git_clone_or_fetch W spec gh s).1.trace = s.trace ++ delta ∧
        List.countP (fun c => isCloneCmd c) delta = 0 ∧
        List.countP (fun c => isFetchCmd c) delta = 1) := by
  constructor
  · intro h
    have h2 : spec.name ∉ s.existing := by simpa using h
    refine ⟨_, rfl, ?_, ?_, ?_⟩
    · cases hsub : spec.submodules <;>
        simp [git_clone_or_fetch, syncStep, seq, run, hok, h2, hsub]
    · cases hsub : spec.submodules <;>
        simp [List.countP_cons, isCloneCmd_cloneCmd, isCloneCmd_checkout,
          isCloneCmd_submodule]
    · cases hsub : spec.submodules <;>
        simp [List.countP_cons, isFetchCmd_cloneCmd, isFetchCmd_checkout,
          isFetchCmd_submodule]
  · intro h
    have h2 : spec.name ∈ s.existing := by simpa using h
    refine ⟨_, rfl, ?_, ?_, ?_⟩
    · cases hsub : spec.submodules <;>
        simp [git_clone_or_fetch, syncStep, seq, run, hok, h2, hsub]
    · cases hsub : spec.submodules <;>
        simp [List.countP_cons, (fetchCmd_class _).2, isCloneCmd_checkout,
          isCloneCmd_submodule]
    · cases hsub : spec.submodules <;>
        simp [List.countP_cons, (fetchCmd_class _).1, isFetchCmd_checkout,
          isFetchCmd_submodule]

/-- C5 witness: concrete fresh destination (one clone, then checkout) and
concrete existing destination (one fetch, then checkout). -/
theorem sync_clone_fetch_witness :
    (git_clone_or_fetch allOk { name := "s", url := "https://example/s.git" } none
        sInit).1.trace
      = [⟨["git", "clone", "https://example/s.git", "/content/repos/s"], none⟩,
         ⟨["git", "checkout", "main"], some "/content/repos/s"⟩] ∧
    (git_clone_or_fetch allOk { name := "s", url := "https://example/s.git" } none
        { sInit with existing := ["s"] }).1.trace
      = [⟨["git", "fetch", "--all", "--tags"], some "/content/repos/s"⟩,
         ⟨["git", "checkout", "main"], some "/content/repos/s"⟩] := by
  have h1 := (sync_clone_fetch_exclusive_with_checkout allOk
      { name := "s", url := "https://example/s.git" } none sInit (fun _ => rfl)).1
      (by decide)
  have h2 := (sync_clone_fetch_exclusive_with_checkout allOk
      { name := "s", url := "https://example/s.git" } none
      { sInit with existing := ["s"] } (fun _ => rfl)).2 (by decide)
  obtain ⟨d1, hd1, htr1, -, -⟩ := h1
  obtain ⟨d2, hd2, htr2, -, -⟩ := h2
  constructor
  · rw [htr1, hd1]; decide
  · rw [htr2, hd2]; decide

set_option maxRecDepth 8000 in
/-- C7 witness: concrete token "sekret" and URL
"https://github.com/org/repo.git". -/
theorem token_as_bearer_header_witness :
    (cloneCmd { name := "g", url := "https://github.com/org/repo.git" }
        (some "sekret")).argv
      = ["git", "-c", "http.extraheader=AUTHORIZATION: bearer sekret", "clone",
         "https://github.com/org/repo.git", "/content/repos/g"] := by
  have h := token_as_bearer_header_not_in_url
    { name := "g", url := "https://github.com/org/repo.git" } "sekret"
    (by decide) (by decide) (by decide)
  exact h.1.trans (by decide)


/-- A successful `seq` decomposes into a successful first step and a
successful continuation. -/
theorem seq_ok_shape {α : Type} {x : Sys × Except Err Unit} {f : Sys → Sys × Except Err α}
    {s2 : Sys} {r : α} (h : seq x f = (s2, Except.ok r)) :
    ∃ s1, x = (s1, Except.ok ()) ∧ f s1 = (s2, Except.ok r) := by
  obtain ⟨s0, r0⟩ := x
  cases r0 with
  | ok u => exact ⟨s0, rfl, by simpa [seq] using h⟩
  | error e => simp [seq] at h

/-- A successful install always returns the summary record
`{name, resolved project dir}`. -/
theorem install_repo_ok_shape {W : World} {spec : RepoSpec} {rd : String} {s s2 : Sys}
    {r : RunResult} (h : install_repo W spec rd s = (s2, Except.ok r)) :
    r = ⟨spec.name, resolveProj rd spec.path⟩ := by
  unfold install_repo at h
  obtain ⟨s1, h1, h2⟩ := seq_ok_shape h
  obtain ⟨s3, h3, h4⟩ := seq_ok_shape h2
  have := (Prod.mk.injEq _ _ _ _).mp h4
  exact (Except.ok.inj this.2).symm

/-- A successful synchronization always returns the destination path
`root/name`. -/
theorem git_clone_or_fetch_ok_dest {W : World} {spec : RepoSpec} {gh : Option String}
    {s s2 : Sys} {d : String} (h : git_clone_or_fetch W spec gh s = (s2, Except.ok d)) :
    d = destOf spec := by
  unfold git_clone_or_fetch at h
  obtain ⟨s1, h1, h2⟩ := seq_ok_shape h
  obtain ⟨s3, h3, h4⟩ := seq_ok_shape h2
  obtain ⟨s5, h5, h6⟩ := seq_ok_shape h4
  have := (Prod.mk.injEq _ _ _ _).mp h6
  exact (Except.ok.inj this.2).symm

/-- Fail-fast: if the run fails on a prefix of the manifest, appending more
entries changes nothing — the same error and the same state (hence the same
command trace: nothing is attempted for the later entries). -/
theorem runAll_prefix_error (W : World) (gh : Option String) :
    ∀ (xs ys : List RepoSpec) (s s1 : Sys) (e : Err),
      runAll W gh xs s = (s1, Except.error e) →
      runAll W gh (xs ++ ys) s = (s1, Except.error e) := by
  intro xs
  induction xs with
  | nil => intro ys s s1 e h; simp [runAll] at h
  | cons spec rest ih =>
    intro ys s s1 e h
    rw [List.cons_append]
    unfold runAll at h ⊢
    rcases hg : git_clone_or_fetch W spec gh s with ⟨sg, rg⟩
    rw [hg] at h
    cases rg with
    | error eg => exact h
    | ok d =>
      dsimp only at h ⊢
      rcases hi : install_repo W spec d sg with ⟨si, ri⟩
      rw [hi] at h
      cases ri with
      | error ei => exact h
      | ok res =>
        dsimp only at h ⊢
        rcases hr : runAll W gh rest si with ⟨sr, rr⟩
        rw [hr] at h
        cases rr with
        | error er =>
          dsimp only at h ⊢
          obtain ⟨hs, he⟩ := (Prod.mk.injEq _ _ _ _).mp h
          rw [ih ys si sr er hr, hs, he]
        | ok rs => simp at h

/-- On success the coordinator returns exactly one RunResult per entry, in
manifest order, each carrying the spec name and the resolved project root. -/
theorem runAll_ok_shape (W : World) (gh : Option String) :
    ∀ (specs : List RepoSpec) (s s2 : Sys) (rs : List RunResult),
      runAll W gh specs s = (s2, Except.ok rs) →
      rs = specs.map fun sp => RunResult.mk sp.name (resolveProj (destOf sp) sp.path) := by
  intro specs
  induction specs with
  | nil => intro s s2 rs h; simp [runAll] at h; simpa using h.2.symm
  | cons spec rest ih =>
    intro s s2 rs h
    unfold runAll at h
    rcases hg : git_clone_or_fetch W spec gh s with ⟨sg, rg⟩
    rw [hg] at h
    cases rg with
    | error eg => simp at h
    | ok d =>
      dsimp only at h
      rcases hi : install_repo W spec d sg with ⟨si, ri⟩
      rw [hi] at h
      cases ri with
      | error ei => simp at h
      | ok res =>
        dsimp only at h
        rcases hr : runAll W gh rest si with ⟨sr, rr⟩
        rw [hr] at h
        cases rr with
        | error er => simp at h
        | ok rs2 =>
          dsimp only at h
          obtain ⟨hs, he⟩ := (Prod.mk.injEq _ _ _ _).mp h
          have hres : res = ⟨spec.name, resolveProj d spec.path⟩ := install_repo_ok_shape hi
          have hd : d = destOf spec := git_clone_or_fetch_ok_dest hg
          have hrs2 := ih si sr rs2 hr
          rw [List.map_cons]
          rw [← Except.ok.inj he, hres, hd, hrs2]


/-- C4: the Run Coordinator is fail-fast: a failure while processing the k-th
repository makes the whole run fail with that error and with the state reached
at the failure, so no later repository is attempted (no command of a later
entry appears in the trace) and no result list is reported; on success the
coordinator produces exactly one RunResult `{name, path}` per entry in
manifest order. -/
theorem coordinator_fail_fast_and_ordered_results (W : World) (gh : Option String)
    (xs ys : List RepoSpec) (s : Sys) :
    (∀ (s1 : Sys) (e : Err), runAll W gh xs s = (s1, Except.error e) →
        runAll W gh (xs ++ ys) s = (s1, Except.error e)) ∧
    (∀ (s2 : Sys) (rs : List RunResult), runAll W gh xs s = (s2, Except.ok rs) →
        rs = xs.map fun sp => RunResult.mk sp.name (resolveProj (destOf sp) sp.path)) :=
  ⟨fun s1 e h => runAll_prefix_error W gh xs ys s s1 e h,
   fun s2 rs h => runAll_ok_shape W gh xs s s2 rs h⟩

/-- C4 witness: with repository `a`'s clone failing, the two-entry run stops
with `a`'s failure and a trace holding only `a`'s clone command; and the
successful one-entry run reports exactly `a`'s RunResult. -/
theorem coordinator_fail_fast_witness :
    runAll cloneFailWorld none
        [{ name := "a", url := "https://example/a.git", install := "none" },
         { name := "b", url := "https://example/b.git", install := "none" }] sInit
      = ({ sInit with
            trace := [⟨["git", "clone", "https://example/a.git", "/content/repos/a"], none⟩] },
         Except.error (Err.commandFailed
           ["git", "clone", "https://example/a.git", "/content/repos/a"])) ∧
    [RunResult.mk "a" "/content/repos/a"]
      = List.map (fun sp => RunResult.mk sp.name (resolveProj (destOf sp) sp.path))
          [{ name := "a", url := "https://example/a.git", install := "none" }] := by
  constructor
  · exact (coordinator_fail_fast_and_ordered_results cloneFailWorld none
        [{ name := "a", url := "https://example/a.git", install := "none" }]
        [{ name := "b", url := "https://example/b.git", install := "none" }] sInit).1
        ({ sInit with
            trace := [⟨["git", "clone", "https://example/a.git", "/content/repos/a"], none⟩] })
        (Err.commandFailed ["git", "clone", "https://example/a.git", "/content/repos/a"])
        (by decide)
  · exact (coordinator_fail_fast_and_ordered_results allOk none
        [{ name := "a", url := "https://example/a.git", install := "none" }] [] sInit).2
        ((runAll allOk none
          [{ name := "a", url := "https://example/a.git", install := "none" }] sInit).1)
        [RunResult.mk "a" "/content/repos/a"]
        (by decide)


/-- C1 counterexample: a manifest entry with `name` and `url` present but
`install="conda"` (outside the closed enumeration) passes normalization
without any error, and the run then issues the entry's clone and checkout
commands BEFORE failing — and it fails with the dispatch-time unknown-install
error, not a normalization-time manifest error. -/
theorem install_enum_not_checked_at_normalization_cex :
    normalize { name := some "x", url := some "https://example/x.git",
                install := some "conda" }
      = Except.ok { name := "x", url := "https://example/x.git", install := "conda" } ∧
    (mainFlow allOk "" (Manifest.mk (some
        [{ name := some "x", url := some "https://example/x.git",
           install := some "conda" }])) sInit).2
      = Except.error (Err.unknownInstall "conda") ∧
    (mainFlow allOk "" (Manifest.mk (some
        [{ name := some "x", url := some "https://example/x.git",
           install := some "conda" }])) sInit).1.trace
      = [⟨["git", "clone", "https://example/x.git", "/content/repos/x"], none⟩,
         ⟨["git", "checkout", "main"], some "/content/repos/x"⟩] := by
  decide

/-- C1 amended: entries missing `name` or `url` do fail at normalization time
(Python's `TypeError` for the missing dataclass field), and any normalization
failure aborts the run before any external command; but an `install` value
outside {none, pip, uv, poetry} is accepted by normalization and is rejected
only at dispatch, with an unknown-install error raised AFTER the entry's
synchronization commands (clone and checkout) have been issued. -/
theorem install_validation_deferred_to_dispatch (W : World) (g : String) (s : Sys) :
    (∀ e : RawEntry, e.name = none ∨ e.url = none →
        normalize e = Except.error Err.typeError) ∧
    (∀ (m : Manifest) (er : Err), normalizeAll (m.repos.getD []) = Except.error er →
        mainFlow W g m s = (s, Except.error er)) ∧
    (∀ (e : RawEntry) (n u : String), e.name = some n → e.url = some u →
        ∃ spec, normalize e = Except.ok spec ∧ spec.install = e.install.getD "pip") ∧
    (∀ spec : RepoSpec, (∀ c, W.ok c = true) →
        spec.install ∉ (["none", "pip", "uv", "poetry"] : List String) →
        s.existing.contains spec.name = false → spec.submodules = false →
        runAll W (pyOrNone g) [spec] s
          = ({ s with
                existing := spec.name :: s.existing,
                environ := environUpdate s.environ spec.env,
                trace := s.trace ++ [cloneCmd spec (pyOrNone g),
                  ⟨["git", "checkout", spec.ref], some (destOf spec)⟩] },
             Except.error (Err.unknownInstall spec.install))) := by
  refine ⟨?_, ?_, ?_, ?_⟩
  · intro e h
    rcases h with h | h
    · simp [normalize, h]
    · rcases hn : e.name with _ | n <;> simp [normalize, h, hn]
  · intro m er h
    simp [mainFlow, h]
  · intro e n u hn hu
    refine ⟨{ name := n, url := u, ref := e.ref.getD "main",
              editable := e.editable.getD true, submodules := e.submodules.getD false,
              extras := e.extras.getD [], install := e.install.getD "pip",
              path := e.path.getD ".", env := e.env.getD [],
              post_install := e.post_install }, ?_, rfl⟩
    simp [normalize, hn, hu]
  · intro spec hok hbad hfresh hsub
    have h2 : spec.name ∉ s.existing := by simpa using hfresh
    have hg : git_clone_or_fetch W spec (pyOrNone g) s
        = ({ s with
              existing := spec.name :: s.existing,
              trace := s.trace ++ [cloneCmd spec (pyOrNone g),
                ⟨["git", "checkout", spec.ref], some (destOf spec)⟩] },
           Except.ok (destOf spec)) := by
      simp [git_clone_or_fetch, syncStep, seq, run, hok, h2, hsub]
    simp only [List.mem_cons, List.mem_singleton, not_or] at hbad
    obtain ⟨hb1, hb2, hb3, hb4⟩ := hbad
    have hi : ∀ s1 : Sys, install_repo W spec (destOf spec) s1
        = ({ s1 with
              environ := environUpdate s1.environ spec.env },
           Except.error (Err.unknownInstall spec.install)) := by
      intro s1
      simp [install_repo, seq, hb1, hb2, hb3, hb4]
    simp [runAll, hg, hi]

/-- C1 amended witness: the entry `{url: ...}` with no name fails normalization
with the TypeError, and the concrete spec with `install="conda"` makes the run
fail at dispatch with the unknown-install error after its clone and checkout
commands were issued. -/
theorem install_validation_deferred_witness :
    normalize { url := some "https://example/u.git" } = Except.error Err.typeError ∧
    runAll allOk (pyOrNone "")
        [{ name := "x", url := "https://example/x.git", install := "conda" }] sInit
      = (Sys.mk [] ["x"] []
          [⟨["git", "clone", "https://example/x.git", "/content/repos/x"], none⟩,
           ⟨["git", "checkout", "main"], some "/content/repos/x"⟩],
         Except.error (Err.unknownInstall "conda")) := by
  constructor
  · exact (install_validation_deferred_to_dispatch allOk "" sInit).1
      { url := some "https://example/u.git" } (Or.inl rfl)
  · have h := (install_validation_deferred_to_dispatch allOk "" sInit).2.2.2
      { name := "x", url := "https://example/x.git", install := "conda" }
      (fun _ => rfl) (by decide) rfl rfl
    exact h.trans (by decide)

end GColab
